import Mathlib

/-!
Verification development for the asynchronous image-upload pipeline
(producer API `api/main.go`, queue worker `worker/main.go`).

The Go source is shallowly embedded: pure string manipulation is
translated directly; filesystem, database, broker and Cloudinary calls
are modelled by an explicit environment of success flags / result
functions, and every externally visible action is recorded in an
explicit effect trace.
-/

namespace Clodinary

/-! ## String helpers (models of Go stdlib functions used by the source) -/

/-- Model of `strings.ToLower` restricted to ASCII (the only characters
the source ever lowercases are filename extensions). -/
def strToLower (s : String) : String :=
  String.mk (s.data.map Char.toLower)

/-- Suffix of the character list after the last '/': the final path
element, as used by `filepath.Ext`. -/
def baseAux : List Char → List Char → List Char
  | acc, [] => acc
  | acc, c :: rest => if c = '/' then baseAux [] rest else baseAux (acc ++ [c]) rest

/-- Model of Go `filepath.Ext`: the suffix beginning at the final dot in
the final element of the path; empty if there is no dot. -/
def goExt (path : String) : String :=
  let b := baseAux [] path.data
  let rev := b.reverse
  let afterDot := rev.takeWhile (fun c => c ≠ '.')
  if afterDot.length = rev.length then "" else String.mk ('.' :: afterDot.reverse)

/-- Does the character list start with the given pattern? -/
def chStarts : List Char → List Char → Bool
  | _, [] => true
  | [], _ :: _ => false
  | a :: l, b :: sub => a = b && chStarts l sub

/-- Does the pattern occur contiguously in the list? -/
def chHasSub : List Char → List Char → Bool
  | [], sub => sub.isEmpty
  | a :: t, sub => chStarts (a :: t) sub || chHasSub t sub

/-- Model of Go `strings.Contains`. -/
def goContains (s sub : String) : Bool :=
  chHasSub s.data sub.data

/-! ## Job envelopes and their JSON wire format -/

/-- Multi-file "post" job envelope (struct `Job` in both Go programs). -/
structure Job where
  post_id : String
  title : String
  todo : String
  file_paths : List String
  timestamp : String
  deriving DecidableEq, Repr

/-- Single-file "binary" job envelope (struct `BinaryJob`). -/
structure BinaryJob where
  job_id : String
  file_path : String
  timestamp : String
  deriving DecidableEq, Repr

/-- JSON values, enough to model the envelope wire format. -/
inductive JVal
  | jnull
  | jbool (b : Bool)
  | jnum (n : Int)
  | jstr (s : String)
  | jarr (xs : List JVal)
  | jobj (fields : List (String × JVal))

/-- A delivered message body: `none` models bytes that are not
syntactically valid JSON at all. -/
def JDoc := Option JVal

/-- Field lookup in a JSON object (abstracting `encoding/json` key
matching; the source always uses exact lower-case tags). -/
def jlookup (fs : List (String × JVal)) (k : String) : Option JVal :=
  (fs.find? (fun f => f.1 = k)).map (fun f => f.2)

/-- Decode a JSON object field into a Go `string` struct field:
missing or null leaves the zero value, a non-string is a decode error. -/
def strField (fs : List (String × JVal)) (k : String) : Option String :=
  match jlookup fs k with
  | none => some ""
  | some (JVal.jstr s) => some s
  | some JVal.jnull => some ""
  | some _ => none

/-- Decode a JSON object field into a Go `[]string` struct field. -/
def strListField (fs : List (String × JVal)) (k : String) : Option (List String) :=
  match jlookup fs k with
  | none => some []
  | some JVal.jnull => some []
  | some (JVal.jarr xs) =>
      xs.mapM (fun v =>
        match v with
        | JVal.jstr s => some s
        | JVal.jnull => some ""
        | _ => none)
  | some _ => none

/-- Model of `json.Unmarshal(msg.Body, &job)` for the Post envelope:
`none` is a decode error. -/
def decodeJob (d : JDoc) : Option Job :=
  match d with
  | none => none
  | some (JVal.jobj fs) => do
      let pid ← strField fs "post_id"
      let title ← strField fs "title"
      let todo ← strField fs "todo"
      let fps ← strListField fs "file_paths"
      let ts ← strField fs "timestamp"
      some ⟨pid, title, todo, fps, ts⟩
  | some _ => none

/-- Model of `json.Unmarshal(msg.Body, &binaryJob)` for the Binary envelope. -/
def decodeBinaryJob (d : JDoc) : Option BinaryJob :=
  match d with
  | none => none
  | some (JVal.jobj fs) => do
      let jid ← strField fs "job_id"
      let fp ← strField fs "file_path"
      let ts ← strField fs "timestamp"
      some ⟨jid, fp, ts⟩
  | some _ => none

/-! ## Worker model (`worker/main.go`) -/

/-- Environment of the worker: outcomes of filesystem, image-decode,
database and Cloudinary calls.  The success of the binary `failed` /
`completed` UPDATEs is not modelled because the source discards or only
logs those errors — they never influence control flow. -/
structure WorkerEnv where
  fileExists : String → Bool
  openOk : String → Bool
  decodeOk : String → Bool
  createOk : String → Bool
  encodeOk : String → Bool
  upload : String → Except String String
  keepFiles : Bool
  binProcessingOk : Bool
  postInsertOk : Bool

/-- Externally visible actions of the worker, in program order. -/
inductive Effect
  | uploadAttempt (path : String)
  | removeFile (path : String)
  | binUpdateProcessing (jobId : String) (ok : Bool)
  | binUpdateFailed (jobId : String) (msg : String)
  | binUpdateCompleted (jobId : String) (url : String)
  | postInsertUrls (postId : String) (title : String) (todo : String)
      (urls : List String) (ok : Bool)
  deriving DecidableEq, Repr

/-- Shared tail of `compressImage`: create the compressed file and
JPEG-encode into it at quality 80. -/
def compressWrite (env : WorkerEnv) (filePath : String) : Except String String :=
  let compressedPath := filePath ++ ".compressed.jpg"
  if env.createOk compressedPath = false then
    Except.error "error creating compressed file"
  else if env.encodeOk compressedPath = false then
    Except.error "error encoding compressed image"
  else
    Except.ok compressedPath

/-- Model of `compressImage`: open the file, dispatch on the lowercased
filename extension, decode, re-encode; returns the compressed path. -/
def compressImage (env : WorkerEnv) (filePath : String) : Except String String :=
  if env.openOk filePath = false then
    Except.error "error opening file"
  else
    let ext := strToLower (goExt filePath)
    if ext = ".jpg" ∨ ext = ".jpeg" then
      if env.decodeOk filePath = false then
        Except.error "error decoding JPEG"
      else
        compressWrite env filePath
    else if ext = ".png" then
      if env.decodeOk filePath = false then
        Except.error "error decoding PNG"
      else
        compressWrite env filePath
    else
      Except.error ("unsupported image format: " ++ ext)

/-- Path actually uploaded: the compressed file, or the original on any
compression failure (the fallback in both `processJob` and
`processBinaryJob`). -/
def fallbackPath (env : WorkerEnv) (p : String) : String :=
  match compressImage env p with
  | Except.ok c => c
  | Except.error _ => p

/-- One iteration of the `processJob` file loop: returns the URL on
success (`none` means the input was skipped) and the emitted effects. -/
def processFile (env : WorkerEnv) (filePath : String) : Option String × List Effect :=
  if env.fileExists filePath = false then
    (none, [])
  else
    let compressedPath := fallbackPath env filePath
    match env.upload compressedPath with
    | Except.error _ =>
        (none, [Effect.uploadAttempt compressedPath] ++
          (if compressedPath ≠ filePath then [Effect.removeFile compressedPath] else []))
    | Except.ok url =>
        (some url, [Effect.uploadAttempt compressedPath] ++
          (if env.keepFiles = false then
            [Effect.removeFile filePath] ++
              (if compressedPath ≠ filePath then [Effect.removeFile compressedPath] else [])
          else []))

/-- The `processJob` loop over `job.FilePaths`, accumulating URLs in
order and concatenating per-file effects. -/
def processFiles (env : WorkerEnv) : List String → List String × List Effect
  | [] => ([], [])
  | p :: rest =>
      let r := processFile env p
      let acc := processFiles env rest
      (match r.1 with
       | some u => u :: acc.1
       | none => acc.1,
       r.2 ++ acc.2)

/-- Model of `processJob`: process every file, then either fail with
"no images were successfully processed" or INSERT the joined URLs into
`posts` (the DB stores `String.intercalate "," urls`). -/
def processJob (env : WorkerEnv) (job : Job) : Except String Unit × List Effect :=
  let res := processFiles env job.file_paths
  if res.1 = [] then
    (Except.error "no images were successfully processed", res.2)
  else
    let fx := res.2 ++
      [Effect.postInsertUrls job.post_id job.title job.todo res.1 env.postInsertOk]
    if env.postInsertOk then
      (Except.ok (), fx)
    else
      (Except.error "error saving to database", fx)

/-- Model of `processBinaryJob`: best-effort `processing` UPDATE, file
existence check, compress with fallback, upload, then `completed` or
`failed` UPDATE. -/
def processBinaryJob (env : WorkerEnv) (bj : BinaryJob) : Except String Unit × List Effect :=
  let fx0 : List Effect := [Effect.binUpdateProcessing bj.job_id env.binProcessingOk]
  if env.fileExists bj.file_path = false then
    let msg := "File not found: " ++ bj.file_path
    (Except.error msg, fx0 ++ [Effect.binUpdateFailed bj.job_id msg])
  else
    let compressedPath := fallbackPath env bj.file_path
    match env.upload compressedPath with
    | Except.error e =>
        let msg := "Error uploading to Cloudinary: " ++ e
        (Except.error msg,
          fx0 ++ [Effect.uploadAttempt compressedPath, Effect.binUpdateFailed bj.job_id msg] ++
            (if compressedPath ≠ bj.file_path then [Effect.removeFile compressedPath] else []))
    | Except.ok url =>
        (Except.ok (),
          fx0 ++ [Effect.uploadAttempt compressedPath, Effect.binUpdateCompleted bj.job_id url] ++
            (if env.keepFiles = false then
              [Effect.removeFile bj.file_path] ++
                (if compressedPath ≠ bj.file_path then [Effect.removeFile compressedPath] else [])
            else []))

/-- Broker outcome chosen by the consumer loops for one delivery. -/
inductive Outcome
  | ack
  | nackRequeue
  | nackDrop
  deriving DecidableEq, Repr

/-- Boolean success test for `Except` results. -/
def exceptOk {ε α : Type} : Except ε α → Bool
  | Except.ok _ => true
  | Except.error _ => false

/-- The body of the `image_processing` consumer loop in `main`: decode
failure is nack-without-requeue, processing failure is
nack-with-requeue, success is ack. -/
def handlePostDelivery (env : WorkerEnv) (body : JDoc) : Outcome × List Effect :=
  match decodeJob body with
  | none => (Outcome.nackDrop, [])
  | some job =>
      let r := processJob env job
      (match r.1 with
       | Except.ok _ => Outcome.ack
       | Except.error _ => Outcome.nackRequeue,
       r.2)

/-- The body of the `binary_upload` consumer loop in `main`. -/
def handleBinaryDelivery (env : WorkerEnv) (body : JDoc) : Outcome × List Effect :=
  match decodeBinaryJob body with
  | none => (Outcome.nackDrop, [])
  | some bj =>
      let r := processBinaryJob env bj
      (match r.1 with
       | Except.ok _ => Outcome.ack
       | Except.error _ => Outcome.nackRequeue,
       r.2)

/-- One consumer step on the post queue: deliver the head, run the loop
body, and apply the broker outcome (ack and nack-drop remove the
message; nack-requeue returns it to the queue). -/
def consumeStepPost (env : WorkerEnv) (q : List JDoc) : List JDoc :=
  match q with
  | [] => []
  | m :: rest =>
      match (handlePostDelivery env m).1 with
      | Outcome.ack => rest
      | Outcome.nackDrop => rest
      | Outcome.nackRequeue => rest ++ [m]

/-- One consumer step on the binary queue. -/
def consumeStepBinary (env : WorkerEnv) (q : List JDoc) : List JDoc :=
  match q with
  | [] => []
  | m :: rest =>
      match (handleBinaryDelivery env m).1 with
      | Outcome.ack => rest
      | Outcome.nackDrop => rest
      | Outcome.nackRequeue => rest ++ [m]

/-! ## Producer model (`api/main.go`) -/

/-- One part of a multipart upload, with the outcomes of its
`fileHeader.Open`, `os.Create` and `io.Copy` calls. -/
structure MultipartFile where
  filename : String
  openOk : Bool
  createOk : Bool
  copyOk : Bool
  deriving DecidableEq, Repr

/-- A parsed multipart request to `/api/upload` (method and form-parse
success assumed; the claims are about the body of the handler). -/
structure UploadRequest where
  title : String
  todo : String
  files : List MultipartFile
  deriving DecidableEq, Repr

/-- A request to `/api/upload-binary`: body length, `Content-Type`
header, and outcomes of `io.ReadAll` and `os.WriteFile`. -/
structure BinaryRequest where
  bodyLen : Nat
  contentType : String
  readOk : Bool
  writeOk : Bool
  deriving DecidableEq, Repr

/-- Environment of the API process: the stream of `uuid.New()` results
and the outcomes of the database insert and the queue publish. -/
structure ApiEnv where
  uuids : Nat → String
  dbInsertOk : Bool
  publishOk : Bool

/-- Externally visible actions of the API handlers, in program order.
Failed database or broker calls carry `ok = false`.  A `publish` effect
records the queue name and the correlation key of the serialized
envelope. -/
inductive ApiFx
  | fileSaved (path : String)
  | fileRemoved (path : String)
  | insertPost (id : String) (title : String) (todo : String) (imageurl : String) (ok : Bool)
  | insertBinary (jobId : String) (status : String) (ok : Bool)
  | publish (queue : String) (id : String) (ok : Bool)
  deriving DecidableEq, Repr

/-- Result handed back to the HTTP caller. -/
structure UploadResponse where
  message : String
  post_id : String
  status : String
  file_paths : List String
  deriving DecidableEq, Repr

/-- Result handed back to the HTTP caller by the binary handler. -/
structure BinaryUploadResponse where
  message : String
  job_id : String
  status : String
  deriving DecidableEq, Repr

/-- Outcome of one handler invocation. -/
inductive HandlerResult
  | httpError (code : Nat) (msg : String)
  | uploadOk (resp : UploadResponse)
  | binaryOk (resp : BinaryUploadResponse)
  deriving DecidableEq, Repr

/-- Result of the staging loop of `uploadHandler`. -/
structure StageResult where
  paths : List String
  fx : List ApiFx
  nextUuid : Nat
  deriving DecidableEq, Repr

/-- Stage one opened multipart file under `/tmp` with the given fresh
uuid: extension from the client filename (default `.jpg`), create the
destination, copy the bytes (removing the destination on a copy error). -/
def stageOne (f : MultipartFile) (uid : String) : Option String × List ApiFx :=
  let ext0 := goExt f.filename
  let ext := if ext0 = "" then ".jpg" else ext0
  let path := "/tmp/" ++ (uid ++ ext)
  if f.createOk = false then
    (none, [])
  else if f.copyOk = false then
    (none, [ApiFx.fileRemoved path])
  else
    (some path, [ApiFx.fileSaved path])

/-- The staging loop of `uploadHandler`: skip files that fail to open
(consuming no uuid), otherwise allocate a uuid and stage. -/
def stageFiles (env : ApiEnv) : List MultipartFile → Nat → StageResult
  | [], n => ⟨[], [], n⟩
  | f :: rest, n =>
      if f.openOk = false then
        stageFiles env rest n
      else
        let r := stageOne f (env.uuids n)
        let acc := stageFiles env rest (n + 1)
        ⟨(match r.1 with
          | some p => p :: acc.paths
          | none => acc.paths),
          r.2 ++ acc.fx, acc.nextUuid⟩

/-- Model of `uploadHandler`: validate, stage, INSERT the pending post
row (empty `imageurl`), publish the envelope, respond; on insert or
publish failure remove the staged files and answer 500. -/
def uploadHandler (env : ApiEnv) (req : UploadRequest) : HandlerResult × List ApiFx :=
  if req.title = "" then
    (HandlerResult.httpError 400 "Title is required", [])
  else if req.files = [] then
    (HandlerResult.httpError 400 "No images provided. Use 'images' or 'files' field", [])
  else
    let postID := env.uuids 0
    let st := stageFiles env req.files 1
    if st.paths = [] then
      (HandlerResult.httpError 400 "No valid files processed", st.fx)
    else
      let fx1 := st.fx ++ [ApiFx.insertPost postID req.title req.todo "" env.dbInsertOk]
      if env.dbInsertOk = false then
        (HandlerResult.httpError 500 "Failed to save post",
          fx1 ++ st.paths.map ApiFx.fileRemoved)
      else
        let fx2 := fx1 ++ [ApiFx.publish "image_processing" postID env.publishOk]
        if env.publishOk = false then
          (HandlerResult.httpError 500 "Failed to queue job",
            fx2 ++ st.paths.map ApiFx.fileRemoved)
        else
          (HandlerResult.uploadOk
            ⟨"Files uploaded and queued for processing", postID, "pending", st.paths⟩,
            fx2)

/-- Extension chosen by `uploadBinaryHandler` from the `Content-Type`
header (note: `png` is tested before `jpeg`, `jpg` before `webp`). -/
def binaryExt (contentType : String) : String :=
  if contentType = "" then ".jpg"
  else if goContains contentType "png" then ".png"
  else if goContains contentType "jpeg" || goContains contentType "jpg" then ".jpg"
  else if goContains contentType "webp" then ".webp"
  else ".jpg"

/-- Model of `uploadBinaryHandler`: read the raw body, stage it under
`/tmp`, INSERT the pending `binary_uploads` row, publish the envelope.
`json.Marshal` of the envelope cannot fail for these field types and is
modelled as always succeeding. -/
def uploadBinaryHandler (env : ApiEnv) (req : BinaryRequest) : HandlerResult × List ApiFx :=
  if req.readOk = false then
    (HandlerResult.httpError 400 "Failed to read request body", [])
  else if req.bodyLen = 0 then
    (HandlerResult.httpError 400 "No file data provided", [])
  else
    let jobID := env.uuids 0
    let filePath := "/tmp/" ++ (jobID ++ binaryExt req.contentType)
    if req.writeOk = false then
      (HandlerResult.httpError 500 "Failed to save file", [])
    else
      let fx1 : List ApiFx :=
        [ApiFx.fileSaved filePath, ApiFx.insertBinary jobID "pending" env.dbInsertOk]
      if env.dbInsertOk = false then
        (HandlerResult.httpError 500 "Failed to save job", fx1 ++ [ApiFx.fileRemoved filePath])
      else
        let fx2 := fx1 ++ [ApiFx.publish "binary_upload" jobID env.publishOk]
        if env.publishOk = false then
          (HandlerResult.httpError 500 "Failed to queue job", fx2 ++ [ApiFx.fileRemoved filePath])
        else
          (HandlerResult.binaryOk ⟨"File uploaded and queued for processing", jobID, "pending"⟩,
            fx2)

/-! ## Observable system state: database rows and queue contents -/

/-- Row of the `posts` table. -/
structure PostRow where
  id : String
  title : String
  todo : String
  imageurl : String
  deriving DecidableEq, Repr

/-- Row of the `binary_uploads` table. -/
structure BinaryRow where
  job_id : String
  status : String
  image_url : Option String
  error_message : Option String
  deriving DecidableEq, Repr

/-- Database tables plus the ids of the envelopes currently enqueued on
each of the two queues. -/
structure SysState where
  posts : List PostRow
  binary : List BinaryRow
  postQueue : List String
  binQueue : List String
  deriving DecidableEq, Repr

/-- Model of the api-side `INSERT INTO posts ... ON CONFLICT (id) DO
UPDATE SET title = $2, todo = $3` (the conflict branch keeps `imageurl`). -/
def upsertPost (rows : List PostRow) (r : PostRow) : List PostRow :=
  if rows.any (fun x => x.id = r.id) then
    rows.map (fun x => if x.id = r.id then { x with title := r.title, todo := r.todo } else x)
  else
    rows ++ [r]

/-- Apply one successful producer effect to the system state; failed
calls and pure file effects leave it unchanged. -/
def applyFx (s : SysState) : ApiFx → SysState
  | ApiFx.insertPost id t td url true =>
      { s with posts := upsertPost s.posts ⟨id, t, td, url⟩ }
  | ApiFx.insertBinary id st true =>
      { s with binary := s.binary ++ [⟨id, st, none, none⟩] }
  | ApiFx.publish q id true =>
      if q = "image_processing" then { s with postQueue := s.postQueue ++ [id] }
      else if q = "binary_upload" then { s with binQueue := s.binQueue ++ [id] }
      else s
  | _ => s

/-- Run a trace of producer effects from a state. -/
def runFx (s : SysState) (fx : List ApiFx) : SysState :=
  fx.foldl applyFx s

/-- Every enqueued envelope id has a row in the table its consumer will
update: the "no envelope without a Status Record" invariant. -/
def QueueInv (s : SysState) : Prop :=
  (∀ id ∈ s.postQueue, ∃ r ∈ s.posts, r.id = id) ∧
  (∀ id ∈ s.binQueue, ∃ r ∈ s.binary, r.job_id = id)

/-- The invariant holds at the start and after every step of the trace. -/
def stepsInv : SysState → List ApiFx → Prop
  | s, [] => QueueInv s
  | s, e :: fx => QueueInv s ∧ stepsInv (applyFx s e) fx

/-- API environment in which every external call succeeds. -/
def apiEnvOk : ApiEnv where
  uuids := fun _ => "id0"
  dbInsertOk := true
  publishOk := true

/-- API environment in which the queue publish fails. -/
def apiEnvPubFail : ApiEnv where
  uuids := fun _ => "id0"
  dbInsertOk := true
  publishOk := false

/-- A one-file multipart request that stages successfully. -/
def req1 : UploadRequest :=
  ⟨"T", "", [⟨"a.jpg", true, true, true⟩]⟩

/-- A non-empty binary request that stages successfully. -/
def breq1 : BinaryRequest :=
  ⟨5, "image/jpeg", true, true⟩

/-- System state with empty tables and empty queues. -/
def emptyState : SysState :=
  ⟨[], [], [], []⟩

/-- Is the effect the completed-post INSERT? -/
def isPostInsert : Effect → Bool
  | Effect.postInsertUrls _ _ _ _ _ => true
  | _ => false

/-- Does the effect write a `processing` status?  The worker's only SQL
statement setting a status to `processing` is the binary UPDATE; no
statement of `processJob` writes any status. -/
def writesProcessing : Effect → Bool
  | Effect.binUpdateProcessing _ _ => true
  | _ => false

/-- Everything `processBinaryJob` does after the initial best-effort
`processing` write; used to factor its trace. -/
def binRest (env : WorkerEnv) (bj : BinaryJob) : Except String Unit × List Effect :=
  if env.fileExists bj.file_path = false then
    let msg := "File not found: " ++ bj.file_path
    (Except.error msg, [Effect.binUpdateFailed bj.job_id msg])
  else
    let compressedPath := fallbackPath env bj.file_path
    match env.upload compressedPath with
    | Except.error e =>
        let msg := "Error uploading to Cloudinary: " ++ e
        (Except.error msg,
          [Effect.uploadAttempt compressedPath, Effect.binUpdateFailed bj.job_id msg] ++
            (if compressedPath ≠ bj.file_path then [Effect.removeFile compressedPath] else []))
    | Except.ok url =>
        (Except.ok (),
          [Effect.uploadAttempt compressedPath, Effect.binUpdateCompleted bj.job_id url] ++
            (if env.keepFiles = false then
              [Effect.removeFile bj.file_path] ++
                (if compressedPath ≠ bj.file_path then [Effect.removeFile compressedPath] else [])
            else []))

/-- Worker environment in which every external call succeeds. -/
def allOkEnv : WorkerEnv where
  fileExists := fun _ => true
  openOk := fun _ => true
  decodeOk := fun _ => true
  createOk := fun _ => true
  encodeOk := fun _ => true
  upload := fun p => Except.ok ("https://res.example/" ++ p)
  keepFiles := false
  binProcessingOk := true
  postInsertOk := true

/-- Worker environment in which every Cloudinary upload fails. -/
def failUploadEnv : WorkerEnv :=
  { allOkEnv with upload := fun _ => Except.error "connection refused" }

/-- Worker environment in which every image decode fails (so every
transcode fails while the files themselves exist and open). -/
def decodeFailEnv : WorkerEnv :=
  { allOkEnv with decodeOk := fun _ => false }

/-- A well-formed Post envelope body with one staged file. -/
def postBody1 : JDoc :=
  some (JVal.jobj
    [("post_id", JVal.jstr "p1"), ("title", JVal.jstr "T"), ("todo", JVal.jstr ""),
     ("file_paths", JVal.jarr [JVal.jstr "/tmp/a.jpg"]), ("timestamp", JVal.jstr "ts")])

/-- A well-formed Post envelope body with an empty `file_paths`. -/
def emptyPostBody : JDoc :=
  some (JVal.jobj [("post_id", JVal.jstr "p2"), ("title", JVal.jstr "T")])

/-- A well-formed Binary envelope body. -/
def binBody1 : JDoc :=
  some (JVal.jobj
    [("job_id", JVal.jstr "j1"), ("file_path", JVal.jstr "/tmp/j1.jpg"),
     ("timestamp", JVal.jstr "ts")])

/-- A body that fails to deserialize as a Post envelope (a JSON number
cannot unmarshal into the `[]string` field `file_paths`), although it
would decode as a zero-valued Binary envelope. -/
def postOnlyBadBody : JDoc :=
  some (JVal.jobj [("file_paths", JVal.jnum 5)])

/-- A body that fails to deserialize as a Binary envelope (a JSON
number cannot unmarshal into the `string` field `job_id`), although it
would decode as a zero-valued Post envelope. -/
def binOnlyBadBody : JDoc :=
  some (JVal.jobj [("job_id", JVal.jnum 5)])

/-! ## Helper lemmas -/

theorem append_ne_empty_left (s t : String) (hs : s.length ≠ 0) : s ++ t ≠ "" := by
  intro h
  have h2 := congrArg String.length h
  rw [String.length_append] at h2
  have hr : ("" : String).length = 0 := by decide
  rw [hr] at h2
  omega

theorem compressImage_update (env : WorkerEnv) (b : Bool) (p : String) :
    compressImage { env with binProcessingOk := b } p = compressImage env p := rfl

theorem fallbackPath_update (env : WorkerEnv) (b : Bool) (p : String) :
    fallbackPath { env with binProcessingOk := b } p = fallbackPath env p := rfl

theorem processFile_no_insert (env : WorkerEnv) (p : String) :
    ∀ e ∈ (processFile env p).2, isPostInsert e = false := by
  intro e he
  cases e <;> try rfl
  exfalso
  unfold processFile at he
  split at he
  · simp at he
  · dsimp only at he
    cases hu : env.upload (fallbackPath env p) <;> rw [hu] at he <;> simp at he

theorem processFiles_fst (env : WorkerEnv) (l : List String) :
    (processFiles env l).1 = l.filterMap (fun p => (processFile env p).1) := by
  induction l with
  | nil => rfl
  | cons p rest ih =>
      unfold processFiles
      cases hr : (processFile env p).1 <;>
        simp [List.filterMap_cons, hr, ih]

theorem processFiles_snd (env : WorkerEnv) (l : List String) :
    (processFiles env l).2 = (l.map (fun p => (processFile env p).2)).flatten := by
  induction l with
  | nil => rfl
  | cons p rest ih =>
      unfold processFiles
      simp [ih]

theorem processFiles_no_insert (env : WorkerEnv) (l : List String) :
    ∀ e ∈ (processFiles env l).2, isPostInsert e = false := by
  intro e he
  rw [processFiles_snd] at he
  simp only [List.mem_flatten, List.mem_map] at he
  obtain ⟨fx, ⟨p, _, hfx⟩, hefx⟩ := he
  subst hfx
  exact processFile_no_insert env p e hefx

theorem processBinaryJob_decomp (env : WorkerEnv) (bj : BinaryJob) :
    processBinaryJob env bj =
      ((binRest env bj).1,
        Effect.binUpdateProcessing bj.job_id env.binProcessingOk :: (binRest env bj).2) := by
  unfold processBinaryJob binRest
  split
  · rfl
  · dsimp only
    cases env.upload (fallbackPath env bj.file_path) <;> rfl

/-! ## Producer-side helper lemmas -/

theorem applyFx_insert_post (s : SysState) (id t td u : String) :
    applyFx s (ApiFx.insertPost id t td u true) =
      { s with posts := upsertPost s.posts ⟨id, t, td, u⟩ } := rfl

theorem applyFx_insert_bin (s : SysState) (id st : String) :
    applyFx s (ApiFx.insertBinary id st true) =
      { s with binary := s.binary ++ [⟨id, st, none, none⟩] } := rfl

theorem applyFx_publish_post (s : SysState) (id : String) :
    applyFx s (ApiFx.publish "image_processing" id true) =
      { s with postQueue := s.postQueue ++ [id] } := rfl

theorem applyFx_publish_bin (s : SysState) (id : String) :
    applyFx s (ApiFx.publish "binary_upload" id true) =
      { s with binQueue := s.binQueue ++ [id] } := rfl

theorem stageOne_neutral (f : MultipartFile) (uid : String) :
    ∀ e ∈ (stageOne f uid).2, ∀ s, applyFx s e = s := by
  intro e he s
  unfold stageOne at he
  dsimp only at he
  split_ifs at he <;> simp at he <;> subst he <;> rfl

theorem stageOne_path (f : MultipartFile) (uid : String) (q : String)
    (h : (stageOne f uid).1 = some q) : ∃ rest, q = "/tmp/" ++ rest := by
  unfold stageOne at h
  dsimp only at h
  split_ifs at h <;> simp at h <;> exact ⟨_, h.symm⟩

theorem stageFiles_neutral (env : ApiEnv) (files : List MultipartFile) :
    ∀ n, ∀ e ∈ (stageFiles env files n).fx, ∀ s, applyFx s e = s := by
  induction files with
  | nil =>
      intro n e he
      simp [stageFiles] at he
  | cons f rest ih =>
      intro n e he
      unfold stageFiles at he
      split_ifs at he
      · exact ih n e he
      · dsimp only at he
        rcases List.mem_append.mp he with h1 | h1
        · exact stageOne_neutral f (env.uuids n) e h1
        · exact ih (n + 1) e h1

theorem stageFiles_paths_tmp (env : ApiEnv) (files : List MultipartFile) :
    ∀ n, ∀ p ∈ (stageFiles env files n).paths, ∃ rest, p = "/tmp/" ++ rest := by
  induction files with
  | nil =>
      intro n p hp
      simp [stageFiles] at hp
  | cons f rest ih =>
      intro n p hp
      unfold stageFiles at hp
      split_ifs at hp
      · exact ih n p hp
      · dsimp only at hp
        cases hso : (stageOne f (env.uuids n)).1 with
        | none =>
            rw [hso] at hp
            exact ih (n + 1) p hp
        | some q =>
            rw [hso] at hp
            rcases List.mem_cons.mp hp with h1 | h1
            · subst h1
              exact stageOne_path f (env.uuids n) p hso
            · exact ih (n + 1) p h1

theorem runFx_append (s : SysState) (a b : List ApiFx) :
    runFx s (a ++ b) = runFx (runFx s a) b := by
  unfold runFx
  rw [List.foldl_append]

theorem runFx_neutral (fx : List ApiFx) (hfx : ∀ e ∈ fx, ∀ s, applyFx s e = s) :
    ∀ s, runFx s fx = s := by
  induction fx with
  | nil => intro s; rfl
  | cons e t ih =>
      intro s
      have h1 : runFx s (e :: t) = runFx (applyFx s e) t := rfl
      rw [h1, hfx e (List.mem_cons_self _ _) s]
      exact ih (fun x hx => hfx x (List.mem_cons_of_mem _ hx)) s

theorem stepsInv_queueInv (s : SysState) (fx : List ApiFx) (h : stepsInv s fx) : QueueInv s := by
  cases fx with
  | nil => exact h
  | cons e t => exact h.1

theorem stepsInv_neutral (fx : List ApiFx) (hfx : ∀ e ∈ fx, ∀ s, applyFx s e = s) :
    ∀ s, QueueInv s → stepsInv s fx := by
  induction fx with
  | nil => intro s hs; exact hs
  | cons e t ih =>
      intro s hs
      refine ⟨hs, ?_⟩
      rw [hfx e (List.mem_cons_self _ _) s]
      exact ih (fun x hx => hfx x (List.mem_cons_of_mem _ hx)) s hs

theorem stepsInv_append (s : SysState) (a b : List ApiFx) :
    stepsInv s (a ++ b) ↔ stepsInv s a ∧ stepsInv (runFx s a) b := by
  induction a generalizing s with
  | nil =>
      constructor
      · intro hb
        exact ⟨stepsInv_queueInv s b hb, hb⟩
      · intro hb
        exact hb.2
  | cons e t ih =>
      constructor
      · intro hstep
        obtain ⟨ha, hb⟩ := (ih (applyFx s e)).mp hstep.2
        exact ⟨⟨hstep.1, ha⟩, hb⟩
      · intro hstep
        exact ⟨hstep.1.1, (ih (applyFx s e)).mpr ⟨hstep.1.2, hstep.2⟩⟩

theorem upsert_keeps (rows : List PostRow) (r : PostRow) (id : String)
    (h : ∃ x ∈ rows, x.id = id) : ∃ x ∈ upsertPost rows r, x.id = id := by
  obtain ⟨x, hx, hxid⟩ := h
  unfold upsertPost
  split
  · refine ⟨if x.id = r.id then { x with title := r.title, todo := r.todo } else x,
      List.mem_map_of_mem _ hx, ?_⟩
    split <;> simpa using hxid
  · exact ⟨x, List.mem_append_left _ hx, hxid⟩

theorem upsert_self (rows : List PostRow) (r : PostRow) :
    ∃ x ∈ upsertPost rows r, x.id = r.id := by
  unfold upsertPost
  split
  · rename_i hany
    simp only [List.any_eq_true, decide_eq_true_eq] at hany
    obtain ⟨x, hx, hxid⟩ := hany
    refine ⟨(fun y => if y.id = r.id then { y with title := r.title, todo := r.todo } else y) x,
      List.mem_map_of_mem _ hx, ?_⟩
    simp [hxid]
  · exact ⟨r, List.mem_append_right _ (List.mem_singleton_self _), rfl⟩

theorem upsert_fresh (rows : List PostRow) (r : PostRow)
    (hfresh : ∀ x ∈ rows, ¬x.id = r.id) : upsertPost rows r = rows ++ [r] := by
  unfold upsertPost
  rw [if_neg]
  simp only [List.any_eq_true, decide_eq_true_eq, not_exists]
  intro x hx
  exact hfresh x hx.1 hx.2

theorem queueInv_upsert (s : SysState) (r : PostRow) (h : QueueInv s) :
    QueueInv { s with posts := upsertPost s.posts r } := by
  constructor
  · intro id hid
    exact upsert_keeps s.posts r id (h.1 id hid)
  · exact h.2

theorem queueInv_insertBin (s : SysState) (id st : String) (h : QueueInv s) :
    QueueInv { s with binary := s.binary ++ [⟨id, st, none, none⟩] } := by
  constructor
  · exact h.1
  · intro i hi
    obtain ⟨x, hx, hxid⟩ := h.2 i hi
    exact ⟨x, List.mem_append_left _ hx, hxid⟩

theorem queueInv_pubPost (s : SysState) (id : String) (h : QueueInv s)
    (hid : ∃ r ∈ s.posts, r.id = id) :
    QueueInv { s with postQueue := s.postQueue ++ [id] } := by
  constructor
  · intro i hi
    rcases List.mem_append.mp hi with h1 | h1
    · exact h.1 i h1
    · simp only [List.mem_singleton] at h1
      subst h1
      exact hid
  · exact h.2

theorem queueInv_pubBin (s : SysState) (id : String) (h : QueueInv s)
    (hid : ∃ r ∈ s.binary, r.job_id = id) :
    QueueInv { s with binQueue := s.binQueue ++ [id] } := by
  constructor
  · exact h.1
  · intro i hi
    rcases List.mem_append.mp hi with h1 | h1
    · exact h.2 i h1
    · simp only [List.mem_singleton] at h1
      subst h1
      exact hid

/-! ## Claim theorems -/

/-- C1 counterexample: the claim says every delivered envelope (Post or
Binary) gets an immediate `processing` status write.  This concrete Post
delivery is decoded, fully processed and acknowledged, yet its effect
trace contains no `processing` write at all (the `posts` table has no
status column and `processJob` issues no status UPDATE). -/
theorem c1_counterexample_post_no_processing_write :
    (handlePostDelivery allOkEnv postBody1).1 = Outcome.ack ∧
    (handlePostDelivery allOkEnv postBody1).2 ≠ [] ∧
    (handlePostDelivery allOkEnv postBody1).2.all (fun e => !(writesProcessing e)) = true := by
  decide

/-- C1 amended: for every delivered Binary envelope the consumer's very
first effect is the `processing` status write, and that write is
best-effort — the job's outcome and all subsequent effects are the same
whether the write succeeds or fails.  The Post variant performs no such
write. -/
theorem c1_amended_binary_processing_best_effort (env : WorkerEnv) (bj : BinaryJob) :
    (processBinaryJob env bj).2.head? =
      some (Effect.binUpdateProcessing bj.job_id env.binProcessingOk) ∧
    (processBinaryJob { env with binProcessingOk := true } bj).1 =
      (processBinaryJob { env with binProcessingOk := false } bj).1 ∧
    (processBinaryJob { env with binProcessingOk := true } bj).2.tail =
      (processBinaryJob { env with binProcessingOk := false } bj).2.tail := by
  have hbt : binRest { env with binProcessingOk := true } bj = binRest env bj := rfl
  have hbf : binRest { env with binProcessingOk := false } bj = binRest env bj := rfl
  refine ⟨?_, ?_, ?_⟩
  · rw [processBinaryJob_decomp]
    rfl
  · rw [processBinaryJob_decomp, processBinaryJob_decomp, hbt, hbf]
  · rw [processBinaryJob_decomp, processBinaryJob_decomp, hbt, hbf]
    rfl

/-- C6: if transcoding of an existing staged input fails, the consumer
still attempts the upload with the original staged path (both
variants), and the input's result is exactly the upload's result — a
transcode failure alone never skips the input. -/
theorem c6_transcode_failure_fallback (env : WorkerEnv) (p : String) (em em2 : String)
    (bj : BinaryJob)
    (hc : compressImage env p = Except.error em)
    (hf : env.fileExists p = true)
    (hcb : compressImage env bj.file_path = Except.error em2)
    (hfb : env.fileExists bj.file_path = true) :
    (processFile env p).2.head? = some (Effect.uploadAttempt p) ∧
    (processFile env p).1 = (env.upload p).toOption ∧
    (processBinaryJob env bj).2.tail.head? = some (Effect.uploadAttempt bj.file_path) := by
  have hfp : fallbackPath env p = p := by unfold fallbackPath; rw [hc]
  have hfpb : fallbackPath env bj.file_path = bj.file_path := by unfold fallbackPath; rw [hcb]
  refine ⟨?_, ?_, ?_⟩
  · unfold processFile
    rw [hf, hfp]
    cases hu : env.upload p <;> simp [hu]
  · unfold processFile
    rw [hf, hfp]
    cases hu : env.upload p <;> simp [hu, Except.toOption]
  · rw [processBinaryJob_decomp]
    unfold binRest
    rw [hfb, hfpb]
    cases hu : env.upload bj.file_path <;> simp [hu]

/-- C7: within one Post job the inputs are attempted in exactly the
order of `file_paths`, the accumulated URL sequence is the in-order
`filterMap` of the per-input results (failed or missing inputs
omitted), and the completed INSERT carries exactly that sequence. -/
theorem c7_order_preserved (env : WorkerEnv) (job : Job) :
    (processFiles env job.file_paths).1 =
      job.file_paths.filterMap (fun p => (processFile env p).1) ∧
    (processFiles env job.file_paths).2 =
      (job.file_paths.map (fun p => (processFile env p).2)).flatten ∧
    (processJob env job).2 =
      (if job.file_paths.filterMap (fun p => (processFile env p).1) = [] then
        (job.file_paths.map (fun p => (processFile env p).2)).flatten
      else
        (job.file_paths.map (fun p => (processFile env p).2)).flatten ++
          [Effect.postInsertUrls job.post_id job.title job.todo
            (job.file_paths.filterMap (fun p => (processFile env p).1)) env.postInsertOk]) := by
  refine ⟨processFiles_fst env job.file_paths, processFiles_snd env job.file_paths, ?_⟩
  unfold processJob
  dsimp only
  rw [processFiles_fst, processFiles_snd]
  split
  · rfl
  · cases env.postInsertOk <;> simp

/-- C10: the transcoder dispatches solely on the lowercased filename
extension; for an openable path whose lowercased extension is none of
`.jpg`, `.jpeg`, `.png` it returns the `unsupported image format`
error, so such an input is uploaded via the original-bytes fallback. -/
theorem c10_extension_dispatch (env : WorkerEnv) (p : String)
    (ho : env.openOk p = true)
    (h1 : strToLower (goExt p) ≠ ".jpg")
    (h2 : strToLower (goExt p) ≠ ".jpeg")
    (h3 : strToLower (goExt p) ≠ ".png") :
    compressImage env p = Except.error ("unsupported image format: " ++ strToLower (goExt p)) ∧
    (env.fileExists p = true →
      (processFile env p).2.head? = some (Effect.uploadAttempt p)) := by
  have hc : compressImage env p =
      Except.error ("unsupported image format: " ++ strToLower (goExt p)) := by
    unfold compressImage
    rw [ho]
    simp only [Bool.true_eq_false, if_false]
    rw [if_neg (by intro h; rcases h with h | h; exact h1 h; exact h2 h), if_neg h3]
  refine ⟨hc, fun hf => ?_⟩
  have hfp : fallbackPath env p = p := by unfold fallbackPath; rw [hc]
  unfold processFile
  rw [hf, hfp]
  cases hu : env.upload p <;> simp [hu]

/-- C3: a delivered envelope whose result sequence is empty is
negatively acknowledged with requeue (both variants), and the Binary
variant additionally records a `failed` status with a non-empty error
message in its trace before the requeue decision. -/
theorem c3_empty_result_requeue (env benv : WorkerEnv) (body bbody : JDoc)
    (job : Job) (bj : BinaryJob)
    (hdec : decodeJob body = some job)
    (hempty : (processFiles env job.file_paths).1 = [])
    (hbdec : decodeBinaryJob bbody = some bj)
    (hbfail : exceptOk (processBinaryJob benv bj).1 = false) :
    (handlePostDelivery env body).1 = Outcome.nackRequeue ∧
    (handleBinaryDelivery benv bbody).1 = Outcome.nackRequeue ∧
    ∃ m, Effect.binUpdateFailed bj.job_id m ∈ (processBinaryJob benv bj).2 ∧ m ≠ "" := by
  refine ⟨?_, ?_, ?_⟩
  · unfold handlePostDelivery
    rw [hdec]
    dsimp only
    unfold processJob
    dsimp only
    rw [if_pos hempty]
  · unfold handleBinaryDelivery
    rw [hbdec]
    dsimp only
    cases hr : (processBinaryJob benv bj).1
    · rfl
    · rw [hr] at hbfail
      simp [exceptOk] at hbfail
  · rw [processBinaryJob_decomp] at hbfail ⊢
    dsimp only at hbfail ⊢
    unfold binRest at hbfail ⊢
    by_cases hfe : benv.fileExists bj.file_path = false
    · refine ⟨"File not found: " ++ bj.file_path, ?_,
        append_ne_empty_left _ _ (by decide)⟩
      simp [hfe]
    · simp only [hfe, if_false] at hbfail ⊢
      cases hu : benv.upload (fallbackPath benv bj.file_path) with
      | error e =>
          refine ⟨"Error uploading to Cloudinary: " ++ e, ?_,
            append_ne_empty_left _ _ (by decide)⟩
          simp [hu]
      | ok u =>
          rw [hu] at hbfail
          simp [exceptOk] at hbfail

/-- C2: a delivered envelope whose per-input processing yields a
non-empty result sequence has its completed write issued with exactly
the accumulated URLs (exactly one URL for the Binary variant) and is
positively acknowledged; and no completed-post write ever carries an
empty URL sequence. -/
theorem c2_completed_exact_urls_then_ack (env benv : WorkerEnv) (body bbody : JDoc)
    (job : Job) (bj : BinaryJob) (url : String)
    (hdec : decodeJob body = some job)
    (hne : (processFiles env job.file_paths).1 ≠ [])
    (hins : env.postInsertOk = true)
    (hbdec : decodeBinaryJob bbody = some bj)
    (hbex : benv.fileExists bj.file_path = true)
    (hbup : benv.upload (fallbackPath benv bj.file_path) = Except.ok url) :
    (handlePostDelivery env body).1 = Outcome.ack ∧
    Effect.postInsertUrls job.post_id job.title job.todo
        (processFiles env job.file_paths).1 true ∈ (handlePostDelivery env body).2 ∧
    (handleBinaryDelivery benv bbody).1 = Outcome.ack ∧
    Effect.binUpdateCompleted bj.job_id url ∈ (handleBinaryDelivery benv bbody).2 ∧
    (∀ (env2 : WorkerEnv) (body2 : JDoc) (pid t td : String) (urls : List String) (ok : Bool),
      Effect.postInsertUrls pid t td urls ok ∈ (handlePostDelivery env2 body2).2 →
        urls ≠ []) := by
  have hfx : (processJob env job).1 = Except.ok () ∧
      (processJob env job).2 = (processFiles env job.file_paths).2 ++
        [Effect.postInsertUrls job.post_id job.title job.todo
          (processFiles env job.file_paths).1 true] := by
    unfold processJob
    dsimp only
    rw [if_neg hne, hins]
    simp
  have hbr : (binRest benv bj).1 = Except.ok () ∧
      Effect.binUpdateCompleted bj.job_id url ∈ (binRest benv bj).2 := by
    unfold binRest
    rw [hbex]
    dsimp only
    rw [hbup]
    simp
  refine ⟨?_, ?_, ?_, ?_, ?_⟩
  · unfold handlePostDelivery
    rw [hdec]
    dsimp only
    rw [hfx.1]
  · unfold handlePostDelivery
    rw [hdec]
    dsimp only
    rw [hfx.2]
    exact List.mem_append_right _ (List.mem_singleton_self _)
  · unfold handleBinaryDelivery
    rw [hbdec]
    dsimp only
    rw [processBinaryJob_decomp]
    dsimp only
    rw [hbr.1]
  · unfold handleBinaryDelivery
    rw [hbdec]
    dsimp only
    rw [processBinaryJob_decomp]
    dsimp only
    exact List.mem_cons_of_mem _ hbr.2
  · intro env2 body2 pid t td urls ok hmem
    unfold handlePostDelivery at hmem
    cases hd2 : decodeJob body2 with
    | none =>
        rw [hd2] at hmem
        simp at hmem
    | some j2 =>
        rw [hd2] at hmem
        dsimp only at hmem
        unfold processJob at hmem
        dsimp only at hmem
        by_cases hres : (processFiles env2 j2.file_paths).1 = []
        · rw [if_pos hres] at hmem
          have := processFiles_no_insert env2 j2.file_paths _ hmem
          simp [isPostInsert] at this
        · rw [if_neg hres] at hmem
          have hmem2 : Effect.postInsertUrls pid t td urls ok ∈
              (processFiles env2 j2.file_paths).2 ++
                [Effect.postInsertUrls j2.post_id j2.title j2.todo
                  (processFiles env2 j2.file_paths).1 env2.postInsertOk] := by
            cases hok : env2.postInsertOk <;> rw [hok] at hmem <;> simpa using hmem
          rcases List.mem_append.mp hmem2 with h1 | h1
          · have := processFiles_no_insert env2 j2.file_paths _ h1
            simp [isPostInsert] at this
          · simp only [List.mem_singleton, Effect.postInsertUrls.injEq] at h1
            obtain ⟨_, _, _, h4, _⟩ := h1
            rw [h4]
            exact hres

theorem consumeStepPost_subset (env : WorkerEnv) (q : List JDoc) (m : JDoc)
    (hm : m ∈ consumeStepPost env q) : m ∈ q := by
  cases q with
  | nil => simp [consumeStepPost] at hm
  | cons h t =>
      unfold consumeStepPost at hm
      dsimp only at hm
      split at hm
      · exact List.mem_cons_of_mem _ hm
      · exact List.mem_cons_of_mem _ hm
      · rcases List.mem_append.mp hm with h1 | h1
        · exact List.mem_cons_of_mem _ h1
        · simp only [List.mem_singleton] at h1
          subst h1
          exact List.mem_cons_self _ _

theorem consumeStepBinary_subset (env : WorkerEnv) (q : List JDoc) (m : JDoc)
    (hm : m ∈ consumeStepBinary env q) : m ∈ q := by
  cases q with
  | nil => simp [consumeStepBinary] at hm
  | cons h t =>
      unfold consumeStepBinary at hm
      dsimp only at hm
      split at hm
      · exact List.mem_cons_of_mem _ hm
      · exact List.mem_cons_of_mem _ hm
      · rcases List.mem_append.mp hm with h1 | h1
        · exact List.mem_cons_of_mem _ h1
        · simp only [List.mem_singleton] at h1
          subst h1
          exact List.mem_cons_self _ _

/-- C4: a delivery whose body fails to deserialize as its own queue's
envelope is negatively acknowledged without requeue by that queue's
consumer loop — the consumer step removes it from the queue, re-adds
nothing, and no number of further consumer steps can ever make it
reappear.  The post-queue and binary-queue bodies are quantified
separately, so a body undecodable for only its own queue is covered. -/
theorem c4_malformed_dropped (env : WorkerEnv) (body bbody : JDoc)
    (q qb qf qfb : List JDoc)
    (hpost : decodeJob body = none)
    (hbin : decodeBinaryJob bbody = none) :
    handlePostDelivery env body = (Outcome.nackDrop, []) ∧
    handleBinaryDelivery env bbody = (Outcome.nackDrop, []) ∧
    consumeStepPost env (body :: q) = q ∧
    consumeStepBinary env (bbody :: qb) = qb ∧
    (body ∉ qf → ∀ n : Nat, body ∉ (consumeStepPost env)^[n] qf) ∧
    (bbody ∉ qfb → ∀ n : Nat, bbody ∉ (consumeStepBinary env)^[n] qfb) := by
  have h1 : handlePostDelivery env body = (Outcome.nackDrop, []) := by
    unfold handlePostDelivery
    rw [hpost]
  have h2 : handleBinaryDelivery env bbody = (Outcome.nackDrop, []) := by
    unfold handleBinaryDelivery
    rw [hbin]
  refine ⟨h1, h2, ?_, ?_, ?_, ?_⟩
  · unfold consumeStepPost
    dsimp only
    rw [h1]
  · unfold consumeStepBinary
    dsimp only
    rw [h2]
  · intro hqf n
    induction n with
    | zero =>
        rw [Function.iterate_zero_apply]
        exact hqf
    | succ k ih =>
        rw [Function.iterate_succ_apply']
        intro hmem
        exact ih (consumeStepPost_subset env _ _ hmem)
  · intro hqfb n
    induction n with
    | zero =>
        rw [Function.iterate_zero_apply]
        exact hqfb
    | succ k ih =>
        rw [Function.iterate_succ_apply']
        intro hmem
        exact ih (consumeStepBinary_subset env _ _ hmem)

/-- Witness for C2 at a concrete one-file Post job and a concrete
Binary job, all external calls succeeding. -/
theorem c2_completed_exact_urls_then_ack_witness :
    (handlePostDelivery allOkEnv postBody1).1 = Outcome.ack ∧
    Effect.postInsertUrls "p1" "T" ""
        (processFiles allOkEnv ["/tmp/a.jpg"]).1 true ∈ (handlePostDelivery allOkEnv postBody1).2 ∧
    (handleBinaryDelivery allOkEnv binBody1).1 = Outcome.ack ∧
    Effect.binUpdateCompleted "j1" "https://res.example//tmp/j1.jpg.compressed.jpg" ∈
      (handleBinaryDelivery allOkEnv binBody1).2 ∧
    (∀ (env2 : WorkerEnv) (body2 : JDoc) (pid t td : String) (urls : List String) (ok : Bool),
      Effect.postInsertUrls pid t td urls ok ∈ (handlePostDelivery env2 body2).2 →
        urls ≠ []) :=
  c2_completed_exact_urls_then_ack allOkEnv allOkEnv postBody1 binBody1
    ⟨"p1", "T", "", ["/tmp/a.jpg"], "ts"⟩ ⟨"j1", "/tmp/j1.jpg", "ts"⟩
    "https://res.example//tmp/j1.jpg.compressed.jpg"
    (by decide) (by decide) rfl (by decide) rfl rfl

/-- Witness for C3 at a Post job with no stageable inputs and a Binary
job whose upload fails. -/
theorem c3_empty_result_requeue_witness :
    (handlePostDelivery allOkEnv emptyPostBody).1 = Outcome.nackRequeue ∧
    (handleBinaryDelivery failUploadEnv binBody1).1 = Outcome.nackRequeue ∧
    ∃ m, Effect.binUpdateFailed "j1" m ∈
        (processBinaryJob failUploadEnv ⟨"j1", "/tmp/j1.jpg", "ts"⟩).2 ∧ m ≠ "" :=
  c3_empty_result_requeue allOkEnv failUploadEnv emptyPostBody binBody1
    ⟨"p2", "T", "", [], ""⟩ ⟨"j1", "/tmp/j1.jpg", "ts"⟩ (by decide) rfl (by decide) rfl

/-- Witness for C4 at concrete bodies that each fail only their own
queue's decoder: a number-valued `file_paths` on the post queue and a
number-valued `job_id` on the binary queue. -/
theorem c4_malformed_dropped_witness :
    handlePostDelivery allOkEnv postOnlyBadBody = (Outcome.nackDrop, []) ∧
    handleBinaryDelivery allOkEnv binOnlyBadBody = (Outcome.nackDrop, []) ∧
    consumeStepPost allOkEnv [postOnlyBadBody] = [] ∧
    consumeStepBinary allOkEnv [binOnlyBadBody] = [] ∧
    (postOnlyBadBody ∉ ([] : List JDoc) →
      ∀ n : Nat, postOnlyBadBody ∉ (consumeStepPost allOkEnv)^[n] []) ∧
    (binOnlyBadBody ∉ ([] : List JDoc) →
      ∀ n : Nat, binOnlyBadBody ∉ (consumeStepBinary allOkEnv)^[n] []) :=
  c4_malformed_dropped allOkEnv postOnlyBadBody binOnlyBadBody [] [] [] [] rfl rfl

/-- Witness for C6 at concrete jpg/png paths in an environment where
every image decode (hence every transcode) fails. -/
theorem c6_transcode_failure_fallback_witness :
    (processFile decodeFailEnv "/tmp/a.jpg").2.head? = some (Effect.uploadAttempt "/tmp/a.jpg") ∧
    (processFile decodeFailEnv "/tmp/a.jpg").1 = (decodeFailEnv.upload "/tmp/a.jpg").toOption ∧
    (processBinaryJob decodeFailEnv ⟨"j1", "/tmp/b.png", "ts"⟩).2.tail.head? =
      some (Effect.uploadAttempt "/tmp/b.png") :=
  c6_transcode_failure_fallback decodeFailEnv "/tmp/a.jpg" "error decoding JPEG"
    "error decoding PNG" ⟨"j1", "/tmp/b.png", "ts"⟩ rfl rfl rfl rfl

/-- Witness for C10 at a `.webp` path — exactly what the binary
producer stages for a webp `Content-Type`. -/
theorem c10_extension_dispatch_witness :
    compressImage allOkEnv "/tmp/abc.webp" =
      Except.error ("unsupported image format: " ++ strToLower (goExt "/tmp/abc.webp")) ∧
    (allOkEnv.fileExists "/tmp/abc.webp" = true →
      (processFile allOkEnv "/tmp/abc.webp").2.head? =
        some (Effect.uploadAttempt "/tmp/abc.webp")) :=
  c10_extension_dispatch allOkEnv "/tmp/abc.webp" rfl (by decide) (by decide) (by decide)

theorem runFx_single (s : SysState) (e : ApiFx) : runFx s [e] = applyFx s e := rfl

theorem applyFx_publish_false (s : SysState) (q id : String) :
    applyFx s (ApiFx.publish q id false) = s := rfl

/-- C5: both producer handlers insert the `pending` Status Record
before publishing the envelope — starting from any state where every
enqueued envelope id has a record, that invariant holds after every
single step of the handler's effect trace, so no reachable state has an
enqueued envelope whose id lacks a record. -/
theorem c5_record_before_publish (env : ApiEnv) (req : UploadRequest) (breq : BinaryRequest)
    (s₀ : SysState) (h : QueueInv s₀) :
    stepsInv s₀ (uploadHandler env req).2 ∧ stepsInv s₀ (uploadBinaryHandler env breq).2 := by
  constructor
  · unfold uploadHandler
    dsimp only
    split_ifs with h1 h2 h3 h4 h5
    · exact h
    · exact h
    · exact stepsInv_neutral _ (stageFiles_neutral env req.files 1) s₀ h
    · apply stepsInv_neutral _ ?_ s₀ h
      intro e he
      rcases List.mem_append.mp he with h6 | h6
      · rcases List.mem_append.mp h6 with h7 | h7
        · exact stageFiles_neutral env req.files 1 e h7
        · simp only [List.mem_singleton] at h7
          rw [h4] at h7
          subst h7
          intro s
          rfl
      · simp only [List.mem_map] at h6
        obtain ⟨p, _, hpe⟩ := h6
        subst hpe
        intro s
        rfl
    · have h4' : env.dbInsertOk = true := by
        cases hdb : env.dbInsertOk
        · exact absurd hdb h4
        · rfl
      rw [h4', h5, List.append_assoc, List.append_assoc]
      refine (stepsInv_append _ _ _).mpr
        ⟨stepsInv_neutral _ (stageFiles_neutral env req.files 1) s₀ h, ?_⟩
      rw [runFx_neutral _ (stageFiles_neutral env req.files 1) s₀]
      refine ⟨h, ?_⟩
      rw [applyFx_insert_post]
      apply stepsInv_neutral _ ?_ _ (queueInv_upsert s₀ _ h)
      intro e he
      simp at he
      rcases he with rfl | ⟨p, hp, rfl⟩ <;> intro s <;> rfl
    · have h4' : env.dbInsertOk = true := by
        cases hdb : env.dbInsertOk
        · exact absurd hdb h4
        · rfl
      have h5' : env.publishOk = true := by
        cases hpb : env.publishOk
        · exact absurd hpb h5
        · rfl
      rw [h4', h5', List.append_assoc]
      refine (stepsInv_append _ _ _).mpr
        ⟨stepsInv_neutral _ (stageFiles_neutral env req.files 1) s₀ h, ?_⟩
      rw [runFx_neutral _ (stageFiles_neutral env req.files 1) s₀]
      refine ⟨h, ?_⟩
      rw [applyFx_insert_post]
      refine ⟨queueInv_upsert s₀ _ h, ?_⟩
      rw [applyFx_publish_post]
      exact queueInv_pubPost _ _ (queueInv_upsert s₀ _ h) (upsert_self _ _)
  · unfold uploadBinaryHandler
    dsimp only
    split_ifs with h1 h2 h3 h4 h5
    · exact h
    · exact h
    · exact h
    · rw [h4]
      exact ⟨h, h, h, h⟩
    · have h4' : env.dbInsertOk = true := by
        cases hdb : env.dbInsertOk
        · exact absurd hdb h4
        · rfl
      rw [h4', h5]
      have hQ1 : QueueInv (applyFx s₀ (ApiFx.insertBinary (env.uuids 0) "pending" true)) := by
        rw [applyFx_insert_bin]
        exact queueInv_insertBin s₀ _ _ h
      exact ⟨h, h, hQ1, hQ1, hQ1⟩
    · have h4' : env.dbInsertOk = true := by
        cases hdb : env.dbInsertOk
        · exact absurd hdb h4
        · rfl
      have h5' : env.publishOk = true := by
        cases hpb : env.publishOk
        · exact absurd hpb h5
        · rfl
      rw [h4', h5']
      have hQ1 : QueueInv (applyFx s₀ (ApiFx.insertBinary (env.uuids 0) "pending" true)) := by
        rw [applyFx_insert_bin]
        exact queueInv_insertBin s₀ _ _ h
      have hQ2 : QueueInv (applyFx (applyFx s₀ (ApiFx.insertBinary (env.uuids 0) "pending" true))
          (ApiFx.publish "binary_upload" (env.uuids 0) true)) := by
        rw [applyFx_insert_bin, applyFx_publish_bin]
        refine queueInv_pubBin _ _ (queueInv_insertBin s₀ _ _ h) ?_
        exact ⟨⟨env.uuids 0, "pending", none, none⟩,
          List.mem_append_right _ (List.mem_singleton_self _), rfl⟩
      exact ⟨h, h, hQ1, hQ2⟩

/-- Witness for C5 from the empty system state with concrete
one-file requests. -/
theorem c5_record_before_publish_witness :
    stepsInv emptyState (uploadHandler apiEnvOk req1).2 ∧
    stepsInv emptyState (uploadBinaryHandler apiEnvOk breq1).2 :=
  c5_record_before_publish apiEnvOk req1 breq1 emptyState
    ⟨fun id hid => absurd hid (List.not_mem_nil id),
     fun id hid => absurd hid (List.not_mem_nil id)⟩

/-- C8: when the queue publish fails after the `pending` record was
inserted, the caller gets a 500 error, every staged file is removed,
and the record is left exactly as inserted — `pending` (empty
`imageurl` for the Post row), neither deleted nor marked failed — with
nothing enqueued. -/
theorem c8_publish_failure_pending (env : ApiEnv) (req : UploadRequest) (breq : BinaryRequest)
    (s₀ : SysState)
    (ht : ¬req.title = "") (hfl : ¬req.files = [])
    (hp : ¬(stageFiles env req.files 1).paths = [])
    (hins : env.dbInsertOk = true) (hpub : env.publishOk = false)
    (hfresh : ∀ x ∈ s₀.posts, ¬x.id = env.uuids 0)
    (hread : breq.readOk = true) (hlen : ¬breq.bodyLen = 0) (hw : breq.writeOk = true) :
    (uploadHandler env req).1 = HandlerResult.httpError 500 "Failed to queue job" ∧
    (uploadHandler env req).2 =
      (stageFiles env req.files 1).fx ++
        [ApiFx.insertPost (env.uuids 0) req.title req.todo "" true] ++
        [ApiFx.publish "image_processing" (env.uuids 0) false] ++
        (stageFiles env req.files 1).paths.map ApiFx.fileRemoved ∧
    (runFx s₀ (uploadHandler env req).2).posts =
      s₀.posts ++ [⟨env.uuids 0, req.title, req.todo, ""⟩] ∧
    (runFx s₀ (uploadHandler env req).2).postQueue = s₀.postQueue ∧
    (uploadBinaryHandler env breq).1 = HandlerResult.httpError 500 "Failed to queue job" ∧
    (uploadBinaryHandler env breq).2 =
      [ApiFx.fileSaved ("/tmp/" ++ (env.uuids 0 ++ binaryExt breq.contentType)),
       ApiFx.insertBinary (env.uuids 0) "pending" true,
       ApiFx.publish "binary_upload" (env.uuids 0) false,
       ApiFx.fileRemoved ("/tmp/" ++ (env.uuids 0 ++ binaryExt breq.contentType))] ∧
    (runFx s₀ (uploadBinaryHandler env breq).2).binary =
      s₀.binary ++ [⟨env.uuids 0, "pending", none, none⟩] ∧
    (runFx s₀ (uploadBinaryHandler env breq).2).binQueue = s₀.binQueue := by
  have hremNeutral : ∀ e ∈ (stageFiles env req.files 1).paths.map ApiFx.fileRemoved,
      ∀ s, applyFx s e = s := by
    intro e he s
    simp only [List.mem_map] at he
    obtain ⟨p, _, hpe⟩ := he
    subst hpe
    rfl
  have hU : uploadHandler env req =
      (HandlerResult.httpError 500 "Failed to queue job",
        (stageFiles env req.files 1).fx ++
          [ApiFx.insertPost (env.uuids 0) req.title req.todo "" true] ++
          [ApiFx.publish "image_processing" (env.uuids 0) false] ++
          (stageFiles env req.files 1).paths.map ApiFx.fileRemoved) := by
    unfold uploadHandler
    dsimp only
    rw [if_neg ht, if_neg hfl, if_neg hp, hins, hpub]
    rfl
  have hB : uploadBinaryHandler env breq =
      (HandlerResult.httpError 500 "Failed to queue job",
        [ApiFx.fileSaved ("/tmp/" ++ (env.uuids 0 ++ binaryExt breq.contentType)),
         ApiFx.insertBinary (env.uuids 0) "pending" true,
         ApiFx.publish "binary_upload" (env.uuids 0) false,
         ApiFx.fileRemoved ("/tmp/" ++ (env.uuids 0 ++ binaryExt breq.contentType))]) := by
    unfold uploadBinaryHandler
    dsimp only
    rw [hread, if_neg hlen, hw, hins, hpub]
    rfl
  have hrun : runFx s₀ (uploadHandler env req).2 =
      { s₀ with posts := s₀.posts ++ [⟨env.uuids 0, req.title, req.todo, ""⟩] } := by
    rw [hU]
    dsimp only
    rw [runFx_append, runFx_append, runFx_append,
      runFx_neutral _ (stageFiles_neutral env req.files 1) s₀,
      runFx_single, runFx_single, applyFx_insert_post, applyFx_publish_false,
      runFx_neutral _ hremNeutral]
    rw [upsert_fresh s₀.posts _ hfresh]
  refine ⟨?_, ?_, ?_, ?_, ?_, ?_, ?_, ?_⟩
  · rw [hU]
  · rw [hU]
  · rw [hrun]
  · rw [hrun]
  · rw [hB]
  · rw [hB]
  · rw [hB]
    rfl
  · rw [hB]
    rfl

/-- Witness for C8 at a concrete one-file request against the empty
state with a failing publish. -/
theorem c8_publish_failure_pending_witness :
    (uploadHandler apiEnvPubFail req1).1 = HandlerResult.httpError 500 "Failed to queue job" ∧
    (uploadHandler apiEnvPubFail req1).2 =
      (stageFiles apiEnvPubFail req1.files 1).fx ++
        [ApiFx.insertPost (apiEnvPubFail.uuids 0) req1.title req1.todo "" true] ++
        [ApiFx.publish "image_processing" (apiEnvPubFail.uuids 0) false] ++
        (stageFiles apiEnvPubFail req1.files 1).paths.map ApiFx.fileRemoved ∧
    (runFx emptyState (uploadHandler apiEnvPubFail req1).2).posts =
      emptyState.posts ++ [⟨apiEnvPubFail.uuids 0, req1.title, req1.todo, ""⟩] ∧
    (runFx emptyState (uploadHandler apiEnvPubFail req1).2).postQueue = emptyState.postQueue ∧
    (uploadBinaryHandler apiEnvPubFail breq1).1 =
      HandlerResult.httpError 500 "Failed to queue job" ∧
    (uploadBinaryHandler apiEnvPubFail breq1).2 =
      [ApiFx.fileSaved ("/tmp/" ++ (apiEnvPubFail.uuids 0 ++ binaryExt breq1.contentType)),
       ApiFx.insertBinary (apiEnvPubFail.uuids 0) "pending" true,
       ApiFx.publish "binary_upload" (apiEnvPubFail.uuids 0) false,
       ApiFx.fileRemoved ("/tmp/" ++ (apiEnvPubFail.uuids 0 ++ binaryExt breq1.contentType))] ∧
    (runFx emptyState (uploadBinaryHandler apiEnvPubFail breq1).2).binary =
      emptyState.binary ++ [⟨apiEnvPubFail.uuids 0, "pending", none, none⟩] ∧
    (runFx emptyState (uploadBinaryHandler apiEnvPubFail breq1).2).binQueue =
      emptyState.binQueue :=
  c8_publish_failure_pending apiEnvPubFail req1 breq1 emptyState
    (by decide) (by decide) (by decide) rfl rfl
    (fun x hx => absurd hx (List.not_mem_nil x)) rfl (by decide) rfl

/-- C9: a successful multi-file upload responds 200 with `file_paths`
equal to the exact staged server-local paths, in staging order, each of
them under `/tmp/` — the internal blob handles are exposed to the
caller. -/
theorem c9_response_exposes_staged_paths (env : ApiEnv) (req : UploadRequest)
    (ht : ¬req.title = "") (hfl : ¬req.files = [])
    (hp : ¬(stageFiles env req.files 1).paths = [])
    (hins : env.dbInsertOk = true) (hpub : env.publishOk = true) :
    (uploadHandler env req).1 = HandlerResult.uploadOk
      ⟨"Files uploaded and queued for processing", env.uuids 0, "pending",
        (stageFiles env req.files 1).paths⟩ ∧
    ∀ p ∈ (stageFiles env req.files 1).paths, ∃ rest, p = "/tmp/" ++ rest := by
  constructor
  · unfold uploadHandler
    dsimp only
    rw [if_neg ht, if_neg hfl, if_neg hp, hins, hpub]
    rfl
  · exact stageFiles_paths_tmp env req.files 1

/-- Witness for C9 at a concrete one-file request. -/
theorem c9_response_exposes_staged_paths_witness :
    (uploadHandler apiEnvOk req1).1 = HandlerResult.uploadOk
      ⟨"Files uploaded and queued for processing", apiEnvOk.uuids 0, "pending",
        (stageFiles apiEnvOk req1.files 1).paths⟩ ∧
    ∀ p ∈ (stageFiles apiEnvOk req1.files 1).paths, ∃ rest, p = "/tmp/" ++ rest :=
  c9_response_exposes_staged_paths apiEnvOk req1
    (by decide) (by decide) (by decide) rfl rfl

end Clodinary
